import Mathlib

/-!
SimpleCom: console to serial bridge

A shallow embedding of `SimpleCom/SimpleCom.cpp`.

* A `TCHAR` code unit is the natural number of its bit pattern, and so is a
  byte handed to the device. The code compares units only with ASCII constants
  and masks them with `0xff`, which reads the same on the bit pattern of a
  16 bit `WCHAR` and of an 8 bit `char`.
* A pointer into a buffer is the map from offsets to the units stored there,
  so `chars + 1` is `fun i => chars (i + 1)`.
* A C string literal is the list of its units; reading it at its length
  yields the terminating NUL.
* `int` lengths are integers.
-/

namespace SimpleCom

/-- The `RW_BUFFER_SIZE` constant. -/
def RW_BUFFER_SIZE : Nat := 2048

/-- The Windows status `ERROR_IO_PENDING`. -/
def ERROR_IO_PENDING : Nat := 997

/-- The units of a C string literal. -/
def cstr (s : String) : List Nat := s.toList.map Char.toNat

/-- Reading `value[i]` of a C string: the unit stored there, NUL at the end. -/
def cstrAt (value : List Nat) (i : Nat) : Nat := value.getD i 0

/-- The `for` loop of `IsCharMatch`, entered at index `i` with `n` rounds left. -/
def IsCharMatch.scan (chars : Nat → Nat) (value : List Nat) : Nat → Nat → Bool
  | _, 0 => true
  | i, n + 1 =>
    if chars i ≠ cstrAt value i then false
    else IsCharMatch.scan chars value (i + 1) n

/-- `IsCharMatch(chars, len, value)`. -/
def IsCharMatch (chars : Nat → Nat) (len : Int) (value : List Nat) : Bool :=
  let vlen : Int := (value.length : Int)
  if len ≠ vlen then false
  else IsCharMatch.scan chars value 0 len.toNat

/-- The literal `f1` of `EscapeChar`. -/
def EscapeChar.f1 : List Nat := cstr "OP"

/-- The literal `f8` of `EscapeChar`. -/
def EscapeChar.f8 : List Nat := cstr "[19~"

/-- `EscapeChar(chars, len)`. -/
def EscapeChar (chars : Nat → Nat) (len : Int) : Int :=
  if len < 2 ∨ chars 0 ≠ 0x1B then 0
  else if IsCharMatch (fun i => chars (i + 1)) (len - 1) EscapeChar.f1 then 1
  else if IsCharMatch (fun i => chars (i + 1)) (len - 1) EscapeChar.f8 then 8
  else 0

/-- The buffer holding the units of a list, NUL beyond its end. -/
def bufOf (l : List Nat) : Nat → Nat := fun i => l.getD i 0

/-- The outcome of one overlapped `WriteFile` on the device, as the code
observes it: the return value of the call, `GetLastError()` after a `FALSE`
return, and the return value of `GetOverlappedResult(..., TRUE)`. -/
structure WriteResult where
  started : Bool
  lastError : Nat
  completed : Bool
  deriving DecidableEq, Repr

/-- The outcome of one overlapped `ReadFile` on the device: the three values of
`WriteResult`, and the contents of `nBytesRead` and `buf` once the calls are
over. -/
structure ReadResult where
  started : Bool
  lastError : Nat
  completed : Bool
  nBytesRead : Nat
  buf : Nat
  deriving DecidableEq, Repr

/-- The calls the program makes on its surroundings, in the order made. -/
inductive Event where
  | errorMessage
  | confirmExit
  | createFile (device : String)
  | setConsoleTitle (title : String)
  | configureDevice
  | createThread
  | writeSerial (payload : List Nat)
  | readSerial
  | writeConsole (buf : Nat) (count : Nat)
  | closeWriteEvent
  | stdInReturn
  | cancelIo
  | joinThread
  | closeSerial
  | closeReadEvent
  deriving DecidableEq, Repr

/-- The payloads of the device writes among some events. -/
def deviceWrites : List Event → List (List Nat)
  | [] => []
  | Event.writeSerial p :: es => p :: deviceWrites es
  | _ :: es => deviceWrites es

/-- The console writes among some events. -/
def consoleWrites : List Event → List (Nat × Nat)
  | [] => []
  | Event.writeConsole b n :: es => (b, n) :: consoleWrites es
  | _ :: es => consoleWrites es

/-- The console titles set among some events. -/
def titles : List Event → List String
  | [] => []
  | Event.setConsoleTitle t :: es => t :: titles es
  | _ :: es => titles es

/-- The globals `terminated`, `pause` and `Port`. -/
structure Session where
  terminated : Bool
  pause : Bool
  Port : String
  deriving DecidableEq, Repr

/-- What one turn of the loop of `StdInRedirector` receives: the units waiting
at the console, whether the operator answers the exit question with yes, and
the outcome of the device write should one be issued. -/
structure ConsoleInput where
  console : List Nat
  confirm : Bool
  write : WriteResult
  deriving DecidableEq, Repr

/-- `ReadConsole(hStdIn, console_data, RW_BUFFER_SIZE, &data_len, nullptr)`:
at most `RW_BUFFER_SIZE` of the waiting units are stored at the start of
`console_data`; the result is the buffer and `data_len`. -/
def ReadConsole (console_data : Nat → Nat) (waiting : List Nat) : (Nat → Nat) × Nat :=
  let data_len := min waiting.length RW_BUFFER_SIZE
  (fun i => if i < data_len then waiting.getD i 0 else console_data i, data_len)

/-- The copy loop of `StdInRedirector`, `send_data[i] = console_data[i] & 0xff`,
entered at index `i` with `n` rounds left. -/
def StdInRedirector.copy (console_data : Nat → Nat) : (Nat → Nat) → Nat → Nat → (Nat → Nat)
  | send_data, _, 0 => send_data
  | send_data, i, n + 1 =>
    StdInRedirector.copy console_data
      (fun j => if j = i then console_data i &&& 0xff else send_data j) (i + 1) n

/-- The locals and globals one turn of the loop of `StdInRedirector` works on. -/
structure StdInState where
  session : Session
  console_data : Nat → Nat
  send_data : Nat → Nat

/-- How the `if`/`else if`/`else` on the escape sequence is left. -/
inductive Branch where
  | leave
  | again
  | fall
  deriving DecidableEq, Repr

/-- The state after the `if`/`else if`/`else`, and the calls made in it. -/
structure Dispatched where
  branch : Branch
  state : StdInState
  events : List Event

/-- The `if`/`else if`/`else` on `EscapeChar(console_data, data_len)` in the loop
of `StdInRedirector`; `consoleOnly` is the `CONSOLE_ONLY` build. -/
def StdInRedirector.dispatch (consoleOnly : Bool) (s : StdInState) (data_len : Nat)
    (confirm : Bool) : Dispatched :=
  if EscapeChar s.console_data (data_len : Int) = 1 then
    if consoleOnly then
      ⟨Branch.leave, { s with session := { s.session with terminated := true } }, []⟩
    else if confirm then
      ⟨Branch.leave, { s with session := { s.session with terminated := true } },
        [Event.confirmExit]⟩
    else
      ⟨Branch.again, s, [Event.confirmExit]⟩
  else if EscapeChar s.console_data (data_len : Int) = 8 then
    let pause := !s.session.pause
    let title := "SimpleCom: " ++ s.session.Port
    let title := if pause then title ++ " [PAUSE]" else title
    ⟨Branch.fall, { s with session := { s.session with pause := pause } },
      [Event.setConsoleTitle title]⟩
  else
    ⟨Branch.fall,
      { s with send_data := StdInRedirector.copy s.console_data s.send_data 0 data_len }, []⟩

/-- The `if (!pause)` block that ends the loop body of `StdInRedirector`:
whether the loop is left by `break`, and the calls made. -/
def StdInRedirector.forward (s : StdInState) (data_len : Nat) (w : WriteResult) :
    Bool × List Event :=
  if !s.session.pause then
    let issued := [Event.writeSerial ((List.range data_len).map s.send_data)]
    if !w.started then
      if w.lastError = ERROR_IO_PENDING then
        if !w.completed then (true, issued) else (false, issued)
      else (false, issued)
    else (false, issued)
  else (false, [])

/-- One turn of the loop of `StdInRedirector`. -/
structure StdInStep where
  state : StdInState
  leave : Bool
  events : List Event

/-- The body of the loop of `StdInRedirector`. -/
def StdInRedirector.iter (consoleOnly : Bool) (s : StdInState) (i : ConsoleInput) :
    StdInStep :=
  let rc := ReadConsole s.console_data i.console
  let d := StdInRedirector.dispatch consoleOnly { s with console_data := rc.1 } rc.2 i.confirm
  match d.branch with
  | Branch.leave => ⟨d.state, true, d.events⟩
  | Branch.again => ⟨d.state, false, d.events⟩
  | Branch.fall =>
    let f := StdInRedirector.forward d.state rc.2 i.write
    ⟨d.state, f.1, d.events ++ f.2⟩

/-- The state in which a turn of the loop of `StdInRedirector` comes to
`if (!pause)`, if it comes there. -/
def StdInRedirector.atForward (consoleOnly : Bool) (s : StdInState) (i : ConsoleInput) :
    Option StdInState :=
  let rc := ReadConsole s.console_data i.console
  let d := StdInRedirector.dispatch consoleOnly { s with console_data := rc.1 } rc.2 i.confirm
  match d.branch with
  | Branch.fall => some d.state
  | _ => none

/-- The write is reported pending and the wait for its completion fails. -/
def WriteResult.waitFailed (w : WriteResult) : Bool :=
  !w.started && decide (w.lastError = ERROR_IO_PENDING) && !w.completed

/-- The write succeeds at once, or is reported pending and then completes. -/
def WriteResult.normal (w : WriteResult) : Bool :=
  w.started || (decide (w.lastError = ERROR_IO_PENDING) && w.completed)

/-- The read is reported pending and the wait for its completion fails. -/
def ReadResult.waitFailed (r : ReadResult) : Bool :=
  !r.started && decide (r.lastError = ERROR_IO_PENDING) && !r.completed

/-- A run of a redirector loop: the state it ends in, the calls made, whether
the loop was left (it is not when the run waits for input that never comes),
and the number of turns that took an input. -/
structure StdInRun where
  state : StdInState
  events : List Event
  returned : Bool
  consumed : Nat

/-- The loop `while (!terminated)` of `StdInRedirector` over the inputs the
console delivers. -/
def StdInRedirector.loop (consoleOnly : Bool) : StdInState → List ConsoleInput → StdInRun
  | s, [] => ⟨s, [], s.session.terminated, 0⟩
  | s, i :: rest =>
    if s.session.terminated then ⟨s, [], true, 0⟩
    else
      let st := StdInRedirector.iter consoleOnly s i
      if st.leave then ⟨st.state, st.events, true, 1⟩
      else
        let r := StdInRedirector.loop consoleOnly st.state rest
        ⟨r.state, st.events ++ r.events, r.returned, r.consumed + 1⟩

/-- `StdInRedirector(parent_hwnd)`; `createEvent` tells whether `CreateEvent`
yields a handle. -/
def StdInRedirector (consoleOnly : Bool) (createEvent : Bool) (s : StdInState)
    (inputs : List ConsoleInput) : StdInRun :=
  if !createEvent then ⟨s, [Event.errorMessage], true, 0⟩
  else
    let r := StdInRedirector.loop consoleOnly s inputs
    if r.returned then { r with events := r.events ++ [Event.closeWriteEvent] } else r

/-- The body of the loop of `StdOutRedirector` once `ReadFile` is called:
whether the loop is left by `break`, and the calls made after the read. -/
def StdOutRedirector.body (g : Session) (r : ReadResult) : Bool × List Event :=
  let leave : Bool :=
    if !r.started then
      if r.lastError = ERROR_IO_PENDING then
        if !r.completed then true else false
      else false
    else false
  if leave then (true, [])
  else if decide (r.nBytesRead > 0) && !g.pause then
    (false, [Event.writeConsole r.buf r.nBytesRead])
  else (false, [])

/-- A run of `StdOutRedirector`. -/
structure StdOutRun where
  session : Session
  events : List Event
  returned : Bool
  consumed : Nat
  deriving DecidableEq, Repr

/-- `StdOutRedirector` over the outcomes of its device reads, with no store by
the other thread during the run. -/
def StdOutRedirector (g : Session) : List ReadResult → StdOutRun
  | [] => ⟨g, [], g.terminated, 0⟩
  | r :: rest =>
    if g.terminated then ⟨g, [], true, 0⟩
    else
      let b := StdOutRedirector.body g r
      if b.1 then ⟨g, Event.readSerial :: b.2, true, 1⟩
      else
        let o := StdOutRedirector g rest
        ⟨o.session, Event.readSerial :: b.2 ++ o.events, o.returned, o.consumed + 1⟩

/-- The two exceptions the configuration step catches. -/
inductive SetupError where
  | winApi
  | serialSetup
  deriving DecidableEq, Repr

/-- What `_tmain` meets at startup. `SerialSetup` is declared in
`SerialSetup.h`: each of its calls is taken by its outcome, a value or one of
the two exceptions. The four booleans tell whether `CreateFile`, the
`CreateEvent` of `_tmain`, `CreateThread` and the `CreateEvent` of
`StdInRedirector` yield a handle; the two buffers are what the locals
`console_data` and `send_data` hold on entry. -/
structure Startup where
  argc : Int
  construct : Except SetupError Unit
  parseArguments : Except SetupError Unit
  showConfigureDialog : Except SetupError Bool
  getPort : Except SetupError String
  saveToDCB : Except SetupError Unit
  createFile : Bool
  createReadEvent : Bool
  createThread : Bool
  createWriteEvent : Bool
  console_data : Nat → Nat
  send_data : Nat → Nat

/-- The `try` block of `_tmain`: an exception, or `none` where the block
returns `-1` itself, or the port. -/
def configure (consoleOnly : Bool) (e : Startup) : Except SetupError (Option String) :=
  match e.construct with
  | Except.error x => Except.error x
  | Except.ok _ =>
    let proceed : Except SetupError Bool :=
      if e.argc > 1 then
        match e.parseArguments with
        | Except.error x => Except.error x
        | Except.ok _ => Except.ok true
      else if consoleOnly then Except.ok true
      else e.showConfigureDialog
    match proceed with
    | Except.error x => Except.error x
    | Except.ok false => Except.ok none
    | Except.ok true =>
      match e.getPort with
      | Except.error x => Except.error x
      | Except.ok port =>
        match e.saveToDCB with
        | Except.error x => Except.error x
        | Except.ok _ => Except.ok (some port)

/-- Where the main thread stands once the worker is created: about to call
`StdInRedirector`, in its loop, back from it and about to call `CancelIoEx`,
in `WaitForSingleObject`, or past the last `CloseHandle`. -/
inductive MainPc where
  | enter
  | loop
  | cancel
  | join
  | returned
  deriving DecidableEq, Repr

/-- Where the worker thread stands in `StdOutRedirector`: at the loop
condition, in a device read, or returned. -/
inductive WorkerPc where
  | head
  | reading
  | done
  deriving DecidableEq, Repr

/-- The two threads of a session: the state of `StdInRedirector` with the
globals both threads share, where each thread stands, and the calls made so
far. -/
structure World where
  state : StdInState
  main : MainPc
  worker : WorkerPc
  trace : List Event

/-- The next thread to move, with what its move receives: the main thread with
the console input of a loop turn, the worker with the outcome of its read. -/
inductive Tick where
  | main (i : ConsoleInput)
  | worker (r : ReadResult)
  deriving DecidableEq, Repr

/-- One move of one thread. The main thread moves through the call of
`StdInRedirector`, `CancelIoEx`, then `WaitForSingleObject`, which returns only
when the worker has returned, and the two `CloseHandle`. The worker moves from
the loop condition into `ReadFile`, and from the outcome of the read through the
rest of the loop body. -/
def step (consoleOnly createWriteEvent : Bool) (w : World) : Tick → World
  | Tick.main i =>
    match w.main with
    | MainPc.enter =>
      if !createWriteEvent then
        { w with main := MainPc.cancel,
                 trace := w.trace ++ [Event.errorMessage, Event.stdInReturn] }
      else { w with main := MainPc.loop }
    | MainPc.loop =>
      if w.state.session.terminated then
        { w with main := MainPc.cancel,
                 trace := w.trace ++ [Event.closeWriteEvent, Event.stdInReturn] }
      else
        let st := StdInRedirector.iter consoleOnly w.state i
        if st.leave then
          { w with state := st.state, main := MainPc.cancel,
                   trace := w.trace ++ st.events ++ [Event.closeWriteEvent, Event.stdInReturn] }
        else { w with state := st.state, trace := w.trace ++ st.events }
    | MainPc.cancel => { w with main := MainPc.join, trace := w.trace ++ [Event.cancelIo] }
    | MainPc.join =>
      if w.worker = WorkerPc.done then
        { w with main := MainPc.returned,
                 trace := w.trace ++ [Event.joinThread, Event.closeSerial, Event.closeReadEvent] }
      else w
    | MainPc.returned => w
  | Tick.worker r =>
    match w.worker with
    | WorkerPc.head =>
      if w.state.session.terminated then { w with worker := WorkerPc.done }
      else { w with worker := WorkerPc.reading, trace := w.trace ++ [Event.readSerial] }
    | WorkerPc.reading =>
      let b := StdOutRedirector.body w.state.session r
      { w with worker := if b.1 then WorkerPc.done else WorkerPc.head,
               trace := w.trace ++ b.2 }
    | WorkerPc.done => w

/-- The moves of a schedule, one after the other. -/
def run (consoleOnly createWriteEvent : Bool) : World → List Tick → World
  | w, [] => w
  | w, t :: ts => run consoleOnly createWriteEvent (step consoleOnly createWriteEvent w t) ts

/-- What a run of `_tmain` yields: the exit code, if it returns, and the calls
made. -/
structure Outcome where
  exit : Option Int
  trace : List Event
  deriving DecidableEq, Repr

/-- The session as `_tmain` starts it: `terminated` and `pause` false, the
worker created and at its loop condition, the main thread about to call
`StdInRedirector`. -/
def startWorld (e : Startup) (Port : String) : World :=
  ⟨⟨⟨false, false, Port⟩, e.console_data, e.send_data⟩, MainPc.enter, WorkerPc.head, []⟩

/-- `_tmain(argc, argv)` under a schedule of its two threads. -/
def _tmain (consoleOnly : Bool) (e : Startup) (schedule : List Tick) : Outcome :=
  match configure consoleOnly e with
  | Except.error SetupError.winApi => ⟨some (-1), [Event.errorMessage]⟩
  | Except.error SetupError.serialSetup => ⟨some (-2), [Event.errorMessage]⟩
  | Except.ok none => ⟨some (-1), []⟩
  | Except.ok (some Port) =>
    let device := "\\\\.\\" ++ Port
    if !e.createFile then
      ⟨some (-4), [Event.createFile device, Event.errorMessage]⟩
    else
      let title := "SimpleCom: " ++ Port
      let opened := [Event.createFile device, Event.setConsoleTitle title, Event.configureDevice]
      if !e.createReadEvent then
        ⟨some (-1), opened ++ [Event.errorMessage, Event.closeSerial]⟩
      else if !e.createThread then
        ⟨some (-2), opened ++ [Event.errorMessage, Event.closeSerial]⟩
      else
        let w := run consoleOnly e.createWriteEvent (startWorld e Port) schedule
        ⟨if w.main = MainPc.returned then some 0 else none,
          opened ++ Event.createThread :: w.trace⟩

/-- The ways a run of `_tmain` can go at startup, in the order the code meets
them: the configuration fails, the device does not open, the completion event
of the read direction, the worker, or the completion event of the write
direction is not created, or the session runs. -/
inductive StartupClass where
  | configuration
  | deviceOpen
  | readEvent
  | worker
  | writeEvent
  | session
  deriving DecidableEq, Repr

/-- The way a run of `_tmain` goes at startup. -/
def startupClass (consoleOnly : Bool) (e : Startup) : StartupClass :=
  match configure consoleOnly e with
  | Except.ok (some _) =>
    if !e.createFile then StartupClass.deviceOpen
    else if !e.createReadEvent then StartupClass.readEvent
    else if !e.createThread then StartupClass.worker
    else if !e.createWriteEvent then StartupClass.writeEvent
    else StartupClass.session
  | _ => StartupClass.configuration

/-- A startup in which every step succeeds: port COM3 given on the command
line. -/
def startupCOM3 : Startup :=
  ⟨2, Except.ok (), Except.ok (), Except.ok true, Except.ok "COM3", Except.ok (),
    true, true, true, true, bufOf [], bufOf []⟩

/-- A startup in which `ParseArguments` throws a `SerialSetupException`. -/
def startupBadArguments : Startup :=
  ⟨2, Except.ok (), Except.error SetupError.serialSetup, Except.ok true, Except.ok "COM3",
    Except.ok (), true, true, true, true, bufOf [], bufOf []⟩

/-- A startup in which `CreateThread` yields no handle. -/
def startupNoWorker : Startup :=
  ⟨2, Except.ok (), Except.ok (), Except.ok true, Except.ok "COM3", Except.ok (),
    true, true, false, true, bufOf [], bufOf []⟩

/-- A startup in which the `CreateEvent` of `StdInRedirector` yields no handle. -/
def startupNoWriteEvent : Startup :=
  ⟨2, Except.ok (), Except.ok (), Except.ok true, Except.ok "COM3", Except.ok (),
    true, true, true, false, bufOf [], bufOf []⟩

/-- A console input of one unit, the letter A, with a write that succeeds. -/
def inputA : ConsoleInput := ⟨[65], false, ⟨true, 0, true⟩⟩

/-- The F1 chunk, confirmed. -/
def inputF1 : ConsoleInput := ⟨[0x1B, 79, 80], true, ⟨true, 0, true⟩⟩

/-- A read of one byte that completes after being pending. -/
def readA : ReadResult := ⟨false, 997, true, 1, 65⟩

/-- A read whose wait for completion fails, as after `CancelIoEx`. -/
def readCancelled : ReadResult := ⟨false, 997, false, 0, 0⟩

/-- A schedule of a whole session: the worker reads a byte and starts the next
read, the main thread forwards a chunk, takes F1 and cancels the read, the
worker returns, the main thread joins it. -/
def scheduleSession : List Tick :=
  [Tick.main inputA, Tick.worker readA, Tick.worker readA, Tick.main inputA,
    Tick.worker readA, Tick.main inputF1, Tick.main inputA, Tick.worker readCancelled,
    Tick.main inputA]

/-- A schedule in which the main thread finds no write event, cancels the read
the worker is in, and joins the worker. -/
def scheduleNoWriteEvent : List Tick :=
  [Tick.worker readA, Tick.main inputA, Tick.main inputA, Tick.worker readCancelled,
    Tick.main inputA]

theorem f1_units : EscapeChar.f1 = [79, 80] := by decide

theorem f8_units : EscapeChar.f8 = [91, 49, 57, 126] := by decide

theorem IsCharMatch_f1 (chars : Nat → Nat) (len : Int) :
    IsCharMatch chars len EscapeChar.f1 = true ↔
      len = 2 ∧ chars 0 = 79 ∧ chars 1 = 80 := by
  rw [f1_units]
  unfold IsCharMatch
  constructor
  · intro h
    by_cases hl : len = 2
    · subst hl
      simp [IsCharMatch.scan, cstrAt] at h
      exact ⟨rfl, h.1, h.2⟩
    · simp [hl] at h
  · rintro ⟨rfl, h0, h1⟩
    simp [IsCharMatch.scan, cstrAt, h0, h1]

theorem IsCharMatch_f8 (chars : Nat → Nat) (len : Int) :
    IsCharMatch chars len EscapeChar.f8 = true ↔
      len = 4 ∧ chars 0 = 91 ∧ chars 1 = 49 ∧ chars 2 = 57 ∧ chars 3 = 126 := by
  rw [f8_units]
  unfold IsCharMatch
  constructor
  · intro h
    by_cases hl : len = 4
    · subst hl
      simp [IsCharMatch.scan, cstrAt] at h
      exact ⟨rfl, h.1, h.2.1, h.2.2.1, h.2.2.2⟩
    · simp [hl] at h
  · rintro ⟨rfl, h0, h1, h2, h3⟩
    simp [IsCharMatch.scan, cstrAt, h0, h1, h2, h3]

theorem EscapeChar_cases (chars : Nat → Nat) (len : Int) :
    (EscapeChar chars len = 1 ↔
      len = 3 ∧ chars 0 = 0x1B ∧ chars 1 = 79 ∧ chars 2 = 80) ∧
    (EscapeChar chars len = 8 ↔
      len = 5 ∧ chars 0 = 0x1B ∧ chars 1 = 91 ∧ chars 2 = 49 ∧
        chars 3 = 57 ∧ chars 4 = 126) ∧
    (¬ (len = 3 ∧ chars 0 = 0x1B ∧ chars 1 = 79 ∧ chars 2 = 80) →
      ¬ (len = 5 ∧ chars 0 = 0x1B ∧ chars 1 = 91 ∧ chars 2 = 49 ∧
        chars 3 = 57 ∧ chars 4 = 126) →
      EscapeChar chars len = 0) := by
  have e1 := IsCharMatch_f1 (fun i => chars (i + 1)) (len - 1)
  have e8 := IsCharMatch_f8 (fun i => chars (i + 1)) (len - 1)
  simp only [Nat.zero_add, Nat.reduceAdd] at e1 e8
  unfold EscapeChar
  by_cases hg : len < 2 ∨ chars 0 ≠ 0x1B
  · rw [if_pos hg]
    refine ⟨⟨fun h => absurd h (by decide), ?_⟩, ⟨fun h => absurd h (by decide), ?_⟩, fun _ _ => rfl⟩
    · rintro ⟨rfl, h0, -⟩
      rcases hg with hg | hg
      · exact absurd hg (by decide)
      · exact absurd h0 hg
    · rintro ⟨rfl, h0, -⟩
      rcases hg with hg | hg
      · exact absurd hg (by decide)
      · exact absurd h0 hg
  · rw [if_neg hg]
    have h0 : chars 0 = 0x1B := by
      by_contra hc
      exact hg (Or.inr hc)
    by_cases m1 : IsCharMatch (fun i => chars (i + 1)) (len - 1) EscapeChar.f1 = true
    · rw [if_pos m1]
      obtain ⟨hl, a, b⟩ := e1.mp m1
      have hl3 : len = 3 := by omega
      refine ⟨⟨fun _ => ⟨hl3, h0, a, b⟩, fun _ => rfl⟩, ⟨fun h => absurd h (by decide), ?_⟩, ?_⟩
      · rintro ⟨hl5, -⟩
        omega
      · intro n1
        exact absurd ⟨hl3, h0, a, b⟩ n1
    · rw [if_neg m1]
      have n1 : ¬ (len = 3 ∧ chars 0 = 0x1B ∧ chars 1 = 79 ∧ chars 2 = 80) := by
        rintro ⟨hl, -, a, b⟩
        exact m1 (e1.mpr ⟨by omega, a, b⟩)
      by_cases m8 : IsCharMatch (fun i => chars (i + 1)) (len - 1) EscapeChar.f8 = true
      · rw [if_pos m8]
        obtain ⟨hl, a, b, c, d⟩ := e8.mp m8
        have hl5 : len = 5 := by omega
        refine ⟨⟨fun h => absurd h (by decide), fun h => absurd h n1⟩,
          ⟨fun _ => ⟨hl5, h0, a, b, c, d⟩, fun _ => rfl⟩, ?_⟩
        intro _ n8
        exact absurd ⟨hl5, h0, a, b, c, d⟩ n8
      · rw [if_neg m8]
        have n8 : ¬ (len = 5 ∧ chars 0 = 0x1B ∧ chars 1 = 91 ∧ chars 2 = 49 ∧
            chars 3 = 57 ∧ chars 4 = 126) := by
          rintro ⟨hl, -, a, b, c, d⟩
          exact m8 (e8.mpr ⟨by omega, a, b, c, d⟩)
        exact ⟨⟨fun h => absurd h (by decide), fun h => absurd h n1⟩,
          ⟨fun h => absurd h (by decide), fun h => absurd h n8⟩, fun _ _ => rfl⟩

/-- `EscapeChar` reads no unit at or beyond `len`. -/
theorem EscapeChar_congr (c d : Nat → Nat) (n : Nat) (h : ∀ i, i < n → c i = d i) :
    EscapeChar c (n : Int) = EscapeChar d (n : Int) := by
  obtain ⟨c1, c8, c0⟩ := EscapeChar_cases c (n : Int)
  obtain ⟨d1, d8, d0⟩ := EscapeChar_cases d (n : Int)
  by_cases p1 : (n : Int) = 3 ∧ c 0 = 0x1B ∧ c 1 = 79 ∧ c 2 = 80
  · have hn : n = 3 := by omega
    subst hn
    have q1 : ((3 : Nat) : Int) = 3 ∧ d 0 = 0x1B ∧ d 1 = 79 ∧ d 2 = 80 := by
      rw [← h 0 (by omega), ← h 1 (by omega), ← h 2 (by omega)]
      exact p1
    rw [c1.mpr p1, d1.mpr q1]
  · by_cases p8 : (n : Int) = 5 ∧ c 0 = 0x1B ∧ c 1 = 91 ∧ c 2 = 49 ∧ c 3 = 57 ∧ c 4 = 126
    · have hn : n = 5 := by omega
      subst hn
      have q8 : ((5 : Nat) : Int) = 5 ∧ d 0 = 0x1B ∧ d 1 = 91 ∧ d 2 = 49 ∧ d 3 = 57 ∧
          d 4 = 126 := by
        rw [← h 0 (by omega), ← h 1 (by omega), ← h 2 (by omega), ← h 3 (by omega),
          ← h 4 (by omega)]
        exact p8
      rw [c8.mpr p8, d8.mpr q8]
    · have q1 : ¬ ((n : Int) = 3 ∧ d 0 = 0x1B ∧ d 1 = 79 ∧ d 2 = 80) := by
        rintro ⟨hl, a0, a1, a2⟩
        have hn : n = 3 := by omega
        subst hn
        exact p1 ⟨hl, by rw [h 0 (by omega)]; exact a0, by rw [h 1 (by omega)]; exact a1,
          by rw [h 2 (by omega)]; exact a2⟩
      have q8 : ¬ ((n : Int) = 5 ∧ d 0 = 0x1B ∧ d 1 = 91 ∧ d 2 = 49 ∧ d 3 = 57 ∧
          d 4 = 126) := by
        rintro ⟨hl, a0, a1, a2, a3, a4⟩
        have hn : n = 5 := by omega
        subst hn
        exact p8 ⟨hl, by rw [h 0 (by omega)]; exact a0, by rw [h 1 (by omega)]; exact a1,
          by rw [h 2 (by omega)]; exact a2, by rw [h 3 (by omega)]; exact a3,
          by rw [h 4 (by omega)]; exact a4⟩
      rw [c0 p1 p8, d0 q1 q8]

/-- What `EscapeChar` sees after `ReadConsole` is the chunk delivered. -/
theorem EscapeChar_ReadConsole (console_data : Nat → Nat) (waiting : List Nat) :
    EscapeChar (ReadConsole console_data waiting).1 ((ReadConsole console_data waiting).2 : Int)
      = EscapeChar (bufOf waiting) ((min waiting.length RW_BUFFER_SIZE : Nat) : Int) := by
  apply EscapeChar_congr
  intro i hi
  simp only [ReadConsole] at hi ⊢
  simp [hi, bufOf]

/-- A chunk that `EscapeChar` classifies as a key is shorter than the buffer. -/
theorem length_le_of_key (waiting : List Nat)
    (h : EscapeChar (bufOf waiting) (waiting.length : Int) ≠ 0) :
    waiting.length ≤ RW_BUFFER_SIZE := by
  obtain ⟨-, -, c0⟩ := EscapeChar_cases (bufOf waiting) (waiting.length : Int)
  by_contra hlen
  apply h
  apply c0
  · rintro ⟨hl, -⟩
    simp only [RW_BUFFER_SIZE] at hlen
    omega
  · rintro ⟨hl, -⟩
    simp only [RW_BUFFER_SIZE] at hlen
    omega

/-- The copy loop masks the units from `i` up to `i + n` and leaves the rest. -/
theorem copy_apply (console_data : Nat → Nat) (n : Nat) :
    ∀ (send_data : Nat → Nat) (i j : Nat),
      StdInRedirector.copy console_data send_data i n j
        = if i ≤ j ∧ j < i + n then console_data j &&& 0xff else send_data j := by
  induction n with
  | zero =>
    intro send_data i j
    have hno : ¬ (i ≤ j ∧ j < i + 0) := by omega
    rw [StdInRedirector.copy, if_neg hno]
  | succ n ih =>
    intro send_data i j
    rw [StdInRedirector.copy, ih]
    by_cases hj : j = i
    · subst hj
      have h1 : ¬ (j + 1 ≤ j ∧ j < j + 1 + n) := by omega
      have h2 : j ≤ j ∧ j < j + (n + 1) := by omega
      simp [h1, h2]
    · by_cases hr : i + 1 ≤ j ∧ j < i + 1 + n
      · have h2 : i ≤ j ∧ j < i + (n + 1) := by omega
        simp [hr, h2]
      · have h2 : ¬ (i ≤ j ∧ j < i + (n + 1)) := by omega
        simp [hr, h2, hj]

theorem ReadConsole_len (cd : Nat → Nat) (waiting : List Nat) :
    (ReadConsole cd waiting).2 = min waiting.length RW_BUFFER_SIZE := rfl

theorem ReadConsole_buf (cd : Nat → Nat) (waiting : List Nat) (j : Nat)
    (hj : j < min waiting.length RW_BUFFER_SIZE) :
    (ReadConsole cd waiting).1 j = waiting.getD j 0 := by
  simp only [ReadConsole]
  rw [if_pos hj]

/-- The turn of the loop on a chunk that is no key. -/
theorem iter_data (b : Bool) (s : StdInState) (i : ConsoleInput)
    (h : EscapeChar (bufOf i.console) ((min i.console.length RW_BUFFER_SIZE : Nat) : Int) = 0) :
    StdInRedirector.iter b s i =
      let rc := ReadConsole s.console_data i.console
      let t : StdInState := ⟨s.session, rc.1, StdInRedirector.copy rc.1 s.send_data 0 rc.2⟩
      ⟨t, (StdInRedirector.forward t rc.2 i.write).1, (StdInRedirector.forward t rc.2 i.write).2⟩ := by
  have h' := EscapeChar_ReadConsole s.console_data i.console
  rw [h] at h'
  simp [StdInRedirector.iter, StdInRedirector.dispatch, h']

/-- The turn of the loop on the F8 chunk. -/
theorem iter_toggle (b : Bool) (s : StdInState) (i : ConsoleInput)
    (h : EscapeChar (bufOf i.console) ((min i.console.length RW_BUFFER_SIZE : Nat) : Int) = 8) :
    StdInRedirector.iter b s i =
      let rc := ReadConsole s.console_data i.console
      let t : StdInState := ⟨⟨s.session.terminated, !s.session.pause, s.session.Port⟩, rc.1, s.send_data⟩
      ⟨t, (StdInRedirector.forward t rc.2 i.write).1,
        Event.setConsoleTitle (if !s.session.pause then "SimpleCom: " ++ s.session.Port ++ " [PAUSE]"
          else "SimpleCom: " ++ s.session.Port) :: (StdInRedirector.forward t rc.2 i.write).2⟩ := by
  have h' := EscapeChar_ReadConsole s.console_data i.console
  rw [h] at h'
  simp [StdInRedirector.iter, StdInRedirector.dispatch, h']

/-- The turn of the loop on the F1 chunk. -/
theorem iter_exit (b : Bool) (s : StdInState) (i : ConsoleInput)
    (h : EscapeChar (bufOf i.console) ((min i.console.length RW_BUFFER_SIZE : Nat) : Int) = 1) :
    StdInRedirector.iter b s i =
      let rc := ReadConsole s.console_data i.console
      if b then ⟨⟨⟨true, s.session.pause, s.session.Port⟩, rc.1, s.send_data⟩, true, []⟩
      else if i.confirm then
        ⟨⟨⟨true, s.session.pause, s.session.Port⟩, rc.1, s.send_data⟩, true, [Event.confirmExit]⟩
      else ⟨⟨s.session, rc.1, s.send_data⟩, false, [Event.confirmExit]⟩ := by
  have h' := EscapeChar_ReadConsole s.console_data i.console
  rw [h] at h'
  cases b <;> cases hc : i.confirm <;>
    simp [StdInRedirector.iter, StdInRedirector.dispatch, h', hc]

theorem forward_unpaused (t : StdInState) (n : Nat) (w : WriteResult)
    (hp : t.session.pause = false) :
    deviceWrites (StdInRedirector.forward t n w).2 = [(List.range n).map t.send_data] := by
  unfold StdInRedirector.forward
  rw [hp]
  cases w.started <;> cases w.completed <;> by_cases he : w.lastError = ERROR_IO_PENDING <;>
    simp [he, deviceWrites]

/-- The payload sent for a chunk that is no key: the chunk, each unit masked. -/
theorem payload_data (cd sd : Nat → Nat) (chunk : List Nat)
    (hle : chunk.length ≤ RW_BUFFER_SIZE) :
    (List.range (ReadConsole cd chunk).2).map
        (StdInRedirector.copy (ReadConsole cd chunk).1 sd 0 (ReadConsole cd chunk).2)
      = chunk.map (fun u => u &&& 0xff) := by
  have hlen : (ReadConsole cd chunk).2 = chunk.length := by
    rw [ReadConsole_len]
    exact Nat.min_eq_left hle
  apply List.ext_getElem
  · simp [hlen]
  · intro k h1 h2
    have hk : k < chunk.length := by simpa using h2
    have hk' : k < min chunk.length RW_BUFFER_SIZE := by
      rw [Nat.min_eq_left hle]; exact hk
    simp only [List.getElem_map, List.getElem_range]
    rw [copy_apply, if_pos ⟨Nat.zero_le _, by rw [hlen]; omega⟩, ReadConsole_buf _ _ _ hk']
    simp [hk]

theorem loop_cons (b : Bool) (s : StdInState) (i : ConsoleInput) (rest : List ConsoleInput)
    (h : s.session.terminated = false) :
    StdInRedirector.loop b s (i :: rest) =
      if (StdInRedirector.iter b s i).leave then
        ⟨(StdInRedirector.iter b s i).state, (StdInRedirector.iter b s i).events, true, 1⟩
      else
        ⟨(StdInRedirector.loop b (StdInRedirector.iter b s i).state rest).state,
          (StdInRedirector.iter b s i).events ++
            (StdInRedirector.loop b (StdInRedirector.iter b s i).state rest).events,
          (StdInRedirector.loop b (StdInRedirector.iter b s i).state rest).returned,
          (StdInRedirector.loop b (StdInRedirector.iter b s i).state rest).consumed + 1⟩ := by
  rw [StdInRedirector.loop]
  simp [h]

theorem forward_paused (t : StdInState) (n : Nat) (w : WriteResult)
    (hp : t.session.pause = true) :
    StdInRedirector.forward t n w = (false, []) := by
  unfold StdInRedirector.forward
  simp [hp]

theorem forward_leave (t : StdInState) (n : Nat) (w : WriteResult)
    (hp : t.session.pause = false) :
    (StdInRedirector.forward t n w).1 = w.waitFailed := by
  unfold StdInRedirector.forward WriteResult.waitFailed
  rw [hp]
  cases w.started <;> cases w.completed <;> by_cases he : w.lastError = ERROR_IO_PENDING <;>
    simp [he]
theorem deviceWrites_append (a b : List Event) :
    deviceWrites (a ++ b) = deviceWrites a ++ deviceWrites b := by
  induction a with
  | nil => rfl
  | cons e es ih => cases e <;> simp [deviceWrites, ih]

/-- A turn of the loop either comes to `if (!pause)`, and then ends as that
block ends, or it does not, and then writes nothing to the device. -/
theorem iter_cases (b : Bool) (s : StdInState) (i : ConsoleInput) :
    (∃ t, StdInRedirector.atForward b s i = some t ∧
        (StdInRedirector.iter b s i).state = t ∧
        (StdInRedirector.iter b s i).leave
          = (StdInRedirector.forward t (ReadConsole s.console_data i.console).2 i.write).1 ∧
        deviceWrites (StdInRedirector.iter b s i).events
          = deviceWrites
              (StdInRedirector.forward t (ReadConsole s.console_data i.console).2 i.write).2 ∧
        t.session.terminated = s.session.terminated) ∨
    (StdInRedirector.atForward b s i = none ∧
      deviceWrites (StdInRedirector.iter b s i).events = []) := by
  unfold StdInRedirector.atForward StdInRedirector.iter StdInRedirector.dispatch
  simp only []
  by_cases h1 : EscapeChar (ReadConsole s.console_data i.console).1
      ((ReadConsole s.console_data i.console).2 : Int) = 1
  · right
    cases b <;> cases hc : i.confirm <;> simp [h1, hc, deviceWrites]
  · left
    by_cases h8 : EscapeChar (ReadConsole s.console_data i.console).1
        ((ReadConsole s.console_data i.console).2 : Int) = 8
    · simp [h1, h8, deviceWrites]
    · simp [h1, h8, deviceWrites]

theorem body_paused (g : Session) (r : ReadResult) (hp : g.pause = true) :
    consoleWrites (StdOutRedirector.body g r).2 = [] := by
  unfold StdOutRedirector.body
  cases r.started <;> cases r.completed <;> by_cases he : r.lastError = ERROR_IO_PENDING <;>
    simp [he, hp, consoleWrites]

theorem body_leave (g : Session) (r : ReadResult) :
    (StdOutRedirector.body g r).1 = r.waitFailed := by
  unfold StdOutRedirector.body ReadResult.waitFailed
  cases r.started <;> cases r.completed <;> by_cases he : r.lastError = ERROR_IO_PENDING <;>
    by_cases hw : decide (r.nBytesRead > 0) && !g.pause <;> simp [he, hw]

theorem StdOutRedirector_cons (g : Session) (r : ReadResult) (rest : List ReadResult)
    (h : g.terminated = false) :
    StdOutRedirector g (r :: rest) =
      if r.waitFailed then ⟨g, Event.readSerial :: (StdOutRedirector.body g r).2, true, 1⟩
      else
        ⟨(StdOutRedirector g rest).session,
          Event.readSerial :: (StdOutRedirector.body g r).2 ++ (StdOutRedirector g rest).events,
          (StdOutRedirector g rest).returned, (StdOutRedirector g rest).consumed + 1⟩ := by
  rw [StdOutRedirector]
  simp [h, body_leave]

theorem StdOutRedirector_session (g : Session) (reads : List ReadResult) :
    (StdOutRedirector g reads).session = g := by
  induction reads with
  | nil => rfl
  | cons r rest ih =>
    rw [StdOutRedirector]
    by_cases ht : g.terminated = true
    · simp [ht]
    · by_cases hb : (StdOutRedirector.body g r).1 = true
      · simp [ht, hb]
      · simp [ht, hb, ih]

theorem iter_Port (b : Bool) (s : StdInState) (i : ConsoleInput) :
    (StdInRedirector.iter b s i).state.session.Port = s.session.Port := by
  unfold StdInRedirector.iter StdInRedirector.dispatch
  simp only []
  by_cases h1 : EscapeChar (ReadConsole s.console_data i.console).1
      ((ReadConsole s.console_data i.console).2 : Int) = 1
  · cases b <;> cases hc : i.confirm <;> simp [h1, hc]
  · by_cases h8 : EscapeChar (ReadConsole s.console_data i.console).1
        ((ReadConsole s.console_data i.console).2 : Int) = 8
    · simp [h1, h8]
    · simp [h1, h8]

theorem titles_append (a b : List Event) : titles (a ++ b) = titles a ++ titles b := by
  induction a with
  | nil => rfl
  | cons e es ih => cases e <;> simp [titles, ih]

theorem forward_titles (t : StdInState) (n : Nat) (w : WriteResult) :
    titles (StdInRedirector.forward t n w).2 = [] := by
  unfold StdInRedirector.forward
  cases t.session.pause <;> cases w.started <;> cases w.completed <;>
    by_cases he : w.lastError = ERROR_IO_PENDING <;> simp [he, titles]

theorem step_Port (b c : Bool) (w : World) (t : Tick) :
    (step b c w t).state.session.Port = w.state.session.Port := by
  cases t with
  | main i =>
    cases hm : w.main with
    | enter => cases c <;> simp [step, hm]
    | loop =>
      by_cases ht : w.state.session.terminated = true
      · simp [step, hm, ht]
      · by_cases hl : (StdInRedirector.iter b w.state i).leave = true
        · simp [step, hm, ht, hl, iter_Port]
        · simp [step, hm, ht, hl, iter_Port]
    | cancel => simp [step, hm]
    | join => by_cases hd : w.worker = WorkerPc.done <;> simp [step, hm, hd]
    | returned => simp [step, hm]
  | worker r =>
    cases hw : w.worker with
    | head => by_cases ht : w.state.session.terminated = true <;> simp [step, hw, ht]
    | reading => simp [step, hw]
    | done => simp [step, hw]

theorem run_Port (b c : Bool) (ts : List Tick) :
    ∀ w : World, (run b c w ts).state.session.Port = w.state.session.Port := by
  induction ts with
  | nil => intro w; rfl
  | cons t ts ih =>
    intro w
    rw [run, ih, step_Port]

/-- The run of `_tmain` once the device is open. -/
theorem tmain_opened (b : Bool) (e : Startup) (sched : List Tick) (p : String)
    (hcfg : configure b e = Except.ok (some p)) (hopen : e.createFile = true) :
    _tmain b e sched =
      if e.createReadEvent = false then
        ⟨some (-1), [Event.createFile ("\\\\.\\" ++ p), Event.setConsoleTitle ("SimpleCom: " ++ p),
          Event.configureDevice, Event.errorMessage, Event.closeSerial]⟩
      else if e.createThread = false then
        ⟨some (-2), [Event.createFile ("\\\\.\\" ++ p), Event.setConsoleTitle ("SimpleCom: " ++ p),
          Event.configureDevice, Event.errorMessage, Event.closeSerial]⟩
      else
        ⟨if (run b e.createWriteEvent (startWorld e p) sched).main = MainPc.returned
            then some 0 else none,
          [Event.createFile ("\\\\.\\" ++ p), Event.setConsoleTitle ("SimpleCom: " ++ p),
            Event.configureDevice, Event.createThread] ++
            (run b e.createWriteEvent (startWorld e p) sched).trace⟩ := by
  unfold _tmain
  rw [hcfg]
  cases h1 : e.createReadEvent <;> cases h2 : e.createThread <;> simp [hopen]

theorem iter_terminated (b : Bool) (s : StdInState) (i : ConsoleInput)
    (h : (StdInRedirector.iter b s i).leave = false) :
    (StdInRedirector.iter b s i).state.session.terminated = s.session.terminated := by
  revert h
  unfold StdInRedirector.iter StdInRedirector.dispatch
  simp only []
  by_cases h1 : EscapeChar (ReadConsole s.console_data i.console).1
      ((ReadConsole s.console_data i.console).2 : Int) = 1
  · cases b <;> cases hc : i.confirm <;> simp [h1, hc]
  · by_cases h8 : EscapeChar (ReadConsole s.console_data i.console).1
        ((ReadConsole s.console_data i.console).2 : Int) = 8
    · simp [h1, h8]
    · simp [h1, h8]

/-- The main thread alone, scheduled through the turns of its loop, does what
the loop of `StdInRedirector` does on the same inputs. -/
theorem run_main_loop (b c : Bool) (inputs : List ConsoleInput) :
    ∀ w : World, w.main = MainPc.loop → w.state.session.terminated = false →
      (StdInRedirector.loop b w.state inputs).returned = true →
      (StdInRedirector.loop b w.state inputs).consumed = inputs.length →
      run b c w (inputs.map Tick.main) =
        ⟨(StdInRedirector.loop b w.state inputs).state, MainPc.cancel, w.worker,
          w.trace ++ (StdInRedirector.loop b w.state inputs).events ++
            [Event.closeWriteEvent, Event.stdInReturn]⟩ := by
  induction inputs with
  | nil =>
    intro w _ ht hr _
    simp only [StdInRedirector.loop] at hr
    rw [ht] at hr
    cases hr
  | cons i rest ih =>
    intro w hm ht hr hc
    rw [loop_cons _ _ _ _ ht] at hr hc ⊢
    by_cases hl : (StdInRedirector.iter b w.state i).leave = true
    · rw [if_pos hl] at hc ⊢
      simp only [List.length_cons] at hc
      have hrest : rest = [] := List.length_eq_zero.mp (by omega)
      subst hrest
      simp only [List.map_cons, List.map_nil, run, step, hm, ht, hl, if_true,
        Bool.false_eq_true, if_false]
    · rw [if_neg hl] at hr hc ⊢
      simp only [List.length_cons, Nat.add_right_cancel_iff] at hc
      have hl' : (StdInRedirector.iter b w.state i).leave = false := by
        cases h : (StdInRedirector.iter b w.state i).leave
        · rfl
        · exact absurd h hl
      have hstep : step b c w (Tick.main i) =
          { w with state := (StdInRedirector.iter b w.state i).state,
                   trace := w.trace ++ (StdInRedirector.iter b w.state i).events } := by
        simp only [step, hm, ht, hl', Bool.false_eq_true, if_false]
      rw [List.map_cons, run, hstep]
      have hi := ih
        { w with state := (StdInRedirector.iter b w.state i).state,
                 trace := w.trace ++ (StdInRedirector.iter b w.state i).events }
        hm (by rw [← ht]; exact iter_terminated _ _ _ hl') hr hc
      rw [hi]
      simp [List.append_assoc]

/-- The main thread of a session, scheduled alone from the call of
`StdInRedirector` on, makes the calls of `StdInRedirector` and then stands
before `CancelIoEx`. -/
theorem run_main_StdInRedirector (b : Bool) (e : Startup) (p : String) (d : ConsoleInput)
    (inputs : List ConsoleInput) (hc : e.createWriteEvent = true)
    (hr : (StdInRedirector b true (startWorld e p).state inputs).returned = true)
    (hall : (StdInRedirector b true (startWorld e p).state inputs).consumed = inputs.length) :
    run b e.createWriteEvent (startWorld e p) (Tick.main d :: inputs.map Tick.main) =
      ⟨(StdInRedirector b true (startWorld e p).state inputs).state, MainPc.cancel,
        WorkerPc.head,
        (StdInRedirector b true (startWorld e p).state inputs).events ++ [Event.stdInReturn]⟩ := by
  have hret : (StdInRedirector.loop b (startWorld e p).state inputs).returned = true := by
    cases h : (StdInRedirector.loop b (startWorld e p).state inputs).returned
    · simp [StdInRedirector, h] at hr
    · rfl
  have hst : (StdInRedirector b true (startWorld e p).state inputs).state =
      (StdInRedirector.loop b (startWorld e p).state inputs).state := by
    simp [StdInRedirector, hret]
  have hev : (StdInRedirector b true (startWorld e p).state inputs).events =
      (StdInRedirector.loop b (startWorld e p).state inputs).events ++
        [Event.closeWriteEvent] := by
    simp [StdInRedirector, hret]
  have hco : (StdInRedirector.loop b (startWorld e p).state inputs).consumed =
      inputs.length := by
    rw [← hall]
    simp [StdInRedirector, hret]
  have hstep : step b e.createWriteEvent (startWorld e p) (Tick.main d) =
      ⟨(startWorld e p).state, MainPc.loop, WorkerPc.head, []⟩ := by
    simp [step, startWorld, hc]
  rw [run, hstep, hst, hev]
  rw [run_main_loop b e.createWriteEvent inputs
    ⟨(startWorld e p).state, MainPc.loop, WorkerPc.head, []⟩ rfl rfl hret hco]
  simp

/-- Without a completion event `StdInRedirector` reports the error and returns;
so does the main thread of a session. -/
theorem run_main_no_event (b : Bool) (e : Startup) (p : String) (d : ConsoleInput)
    (inputs : List ConsoleInput) (hc : e.createWriteEvent = false) :
    run b e.createWriteEvent (startWorld e p) [Tick.main d] =
      ⟨(StdInRedirector b false (startWorld e p).state inputs).state, MainPc.cancel,
        WorkerPc.head,
        (StdInRedirector b false (startWorld e p).state inputs).events ++ [Event.stdInReturn]⟩ := by
  simp [run, step, startWorld, hc, StdInRedirector]

/-- C1: `EscapeChar` yields 1 exactly for the three units ESC, O, P with
`len = 3`, yields 8 exactly for the five units ESC, [, 1, 9, ~ with `len = 5`,
and yields 0 in every other case, whatever the buffer and the length. -/
theorem EscapeChar_exact (chars : Nat → Nat) (len : Int) :
    (EscapeChar chars len = 1 ↔
      len = 3 ∧ chars 0 = 0x1B ∧ chars 1 = Char.toNat 'O' ∧ chars 2 = Char.toNat 'P') ∧
    (EscapeChar chars len = 8 ↔
      len = 5 ∧ chars 0 = 0x1B ∧ chars 1 = Char.toNat '[' ∧ chars 2 = Char.toNat '1' ∧
        chars 3 = Char.toNat '9' ∧ chars 4 = Char.toNat '~') ∧
    (¬ (len = 3 ∧ chars 0 = 0x1B ∧ chars 1 = Char.toNat 'O' ∧ chars 2 = Char.toNat 'P') →
      ¬ (len = 5 ∧ chars 0 = 0x1B ∧ chars 1 = Char.toNat '[' ∧ chars 2 = Char.toNat '1' ∧
        chars 3 = Char.toNat '9' ∧ chars 4 = Char.toNat '~') →
      EscapeChar chars len = 0) := by
  have hO : Char.toNat 'O' = 79 := by decide
  have hP : Char.toNat 'P' = 80 := by decide
  have hb : Char.toNat '[' = 91 := by decide
  have h1 : Char.toNat '1' = 49 := by decide
  have h9 : Char.toNat '9' = 57 := by decide
  have ht : Char.toNat '~' = 126 := by decide
  rw [hO, hP, hb, h1, h9, ht]
  exact EscapeChar_cases chars len

/-- C2: a chunk of `n` units, `n` at most 2048, that `EscapeChar` classifies
as ordinary data, taken by one turn of the loop of `StdInRedirector` while
`pause` is false, gives exactly one device write; its payload has length `n`
and holds at each index the unit of the chunk masked with `0xff`, in order. -/
theorem unpaused_data_forwarded (consoleOnly : Bool) (s : StdInState) (i : ConsoleInput)
    (n : Nat) (hn : i.console.length = n) (hle : n ≤ RW_BUFFER_SIZE)
    (hdata : EscapeChar (bufOf i.console) (n : Int) = 0)
    (hp : s.session.pause = false) :
    ∃ payload : List Nat,
      deviceWrites (StdInRedirector.iter consoleOnly s i).events = [payload] ∧
      payload.length = n ∧
      (∀ k, k < n → payload.getD k 0 = i.console.getD k 0 &&& 0xff) ∧
      payload = i.console.map (fun u => u &&& 0xff) := by
  subst hn
  have hmin : min i.console.length RW_BUFFER_SIZE = i.console.length := Nat.min_eq_left hle
  have h := iter_data consoleOnly s i (by rw [hmin]; exact hdata)
  refine ⟨i.console.map (fun u => u &&& 0xff), ?_, by simp, ?_, rfl⟩
  · rw [h]
    simp only []
    rw [forward_unpaused _ _ _ (by exact hp)]
    simp only []
    rw [payload_data _ _ _ hle]
  · intro k hk
    rw [List.getD_eq_getElem _ _ (by simpa using hk), List.getD_eq_getElem _ _ hk]
    simp

theorem unpaused_data_forwarded_witness :
    deviceWrites (StdInRedirector.iter false ⟨⟨false, false, "COM3"⟩, bufOf [], bufOf []⟩
      ⟨[65, 84, 13, 10], false, ⟨true, 0, true⟩⟩).events = [[65, 84, 13, 10]] := by
  obtain ⟨p, h1, -, -, h4⟩ := unpaused_data_forwarded false
    ⟨⟨false, false, "COM3"⟩, bufOf [], bufOf []⟩ ⟨[65, 84, 13, 10], false, ⟨true, 0, true⟩⟩ 4
    rfl (by decide) (by decide) rfl
  rw [h1, h4]
  decide

/-- C3: the turn of the loop of `StdInRedirector` on the F8 chunk while `pause`
is true flips `pause` to false and then writes to the device the five bytes
that `send_data` holds from before. In a run from the start of a session over
the chunk A, T, CR, LF, X and two F8 chunks, the device is written twice: the
chunk, and on the second F8 the same five bytes again. -/
theorem toggle_leaving_pause_writes :
    EscapeChar (bufOf [0x1B, 91, 49, 57, 126]) 5 = 8 ∧
    (StdInRedirector.iter false ⟨⟨false, true, "COM3"⟩, bufOf [], bufOf [65, 84, 13, 10, 88]⟩
        ⟨[0x1B, 91, 49, 57, 126], false, ⟨true, 0, true⟩⟩).state.session.pause = false ∧
    (StdInRedirector.iter false ⟨⟨false, true, "COM3"⟩, bufOf [], bufOf [65, 84, 13, 10, 88]⟩
        ⟨[0x1B, 91, 49, 57, 126], false, ⟨true, 0, true⟩⟩).events
      = [Event.setConsoleTitle "SimpleCom: COM3", Event.writeSerial [65, 84, 13, 10, 88]] ∧
    (StdInRedirector.loop false ⟨⟨false, false, "COM3"⟩, bufOf [], bufOf []⟩
        [⟨[65, 84, 13, 10, 88], false, ⟨true, 0, true⟩⟩,
          ⟨[0x1B, 91, 49, 57, 126], false, ⟨true, 0, true⟩⟩,
          ⟨[0x1B, 91, 49, 57, 126], false, ⟨true, 0, true⟩⟩]).events
      = [Event.writeSerial [65, 84, 13, 10, 88],
          Event.setConsoleTitle "SimpleCom: COM3 [PAUSE]",
          Event.setConsoleTitle "SimpleCom: COM3",
          Event.writeSerial [65, 84, 13, 10, 88]] := by
  decide

/-- C4: a turn of the loop of `StdInRedirector` that comes to `if (!pause)` with
`pause` true writes nothing to the device and does not leave the loop, which
goes on to read the next chunk; a turn of the loop of `StdOutRedirector` with
`pause` true writes nothing to the console, and unless the wait for the read
failed it does not leave the loop, which goes on to the next read. -/
theorem paused_suppresses_forwarding (consoleOnly : Bool) (s t : StdInState)
    (i j : ConsoleInput) (rest : List ConsoleInput)
    (g : Session) (r r2 : ReadResult) (reads : List ReadResult)
    (hrun : s.session.terminated = false)
    (hreach : StdInRedirector.atForward consoleOnly s i = some t)
    (hpause : t.session.pause = true)
    (grun : g.terminated = false)
    (gpause : g.pause = true) :
    (deviceWrites (StdInRedirector.iter consoleOnly s i).events = [] ∧
      (StdInRedirector.iter consoleOnly s i).leave = false ∧
      2 ≤ (StdInRedirector.loop consoleOnly s (i :: j :: rest)).consumed) ∧
    (consoleWrites (StdOutRedirector.body g r).2 = [] ∧
      (r.waitFailed = false →
        (StdOutRedirector.body g r).1 = false ∧
        2 ≤ (StdOutRedirector g (r :: r2 :: reads)).consumed)) := by
  rcases iter_cases consoleOnly s i with ⟨t', h1, h2, h3, h4, h5⟩ | ⟨h1, -⟩
  · rw [hreach] at h1
    cases h1
    rw [forward_paused _ _ _ hpause] at h3 h4
    have hterm : (StdInRedirector.iter consoleOnly s i).state.session.terminated = false := by
      rw [h2, h5, hrun]
    refine ⟨⟨h4, h3, ?_⟩, body_paused g r gpause, ?_⟩
    · rw [loop_cons _ _ _ _ hrun, h3]
      simp only [Bool.false_eq_true, if_false]
      rw [loop_cons _ _ _ _ hterm]
      split <;> simp
    · intro hw
      refine ⟨by rw [body_leave, hw], ?_⟩
      rw [StdOutRedirector_cons _ _ _ grun, hw]
      simp only [Bool.false_eq_true, if_false]
      rw [StdOutRedirector]
      simp only [grun, Bool.false_eq_true, if_false]
      split <;> simp
  · rw [hreach] at h1
    cases h1

theorem paused_suppresses_forwarding_witness :
    (deviceWrites (StdInRedirector.iter false ⟨⟨false, true, "COM3"⟩, bufOf [], bufOf []⟩
        ⟨[65], false, ⟨true, 0, true⟩⟩).events = [] ∧
      (StdInRedirector.iter false ⟨⟨false, true, "COM3"⟩, bufOf [], bufOf []⟩
        ⟨[65], false, ⟨true, 0, true⟩⟩).leave = false ∧
      2 ≤ (StdInRedirector.loop false ⟨⟨false, true, "COM3"⟩, bufOf [], bufOf []⟩
        [⟨[65], false, ⟨true, 0, true⟩⟩, ⟨[66], false, ⟨true, 0, true⟩⟩]).consumed) ∧
    (consoleWrites (StdOutRedirector.body ⟨false, true, "COM3"⟩ ⟨true, 0, true, 1, 65⟩).2 = [] ∧
      ((⟨true, 0, true, 1, 65⟩ : ReadResult).waitFailed = false →
        (StdOutRedirector.body ⟨false, true, "COM3"⟩ ⟨true, 0, true, 1, 65⟩).1 = false ∧
        2 ≤ (StdOutRedirector ⟨false, true, "COM3"⟩
          [⟨true, 0, true, 1, 65⟩, ⟨true, 0, true, 1, 66⟩]).consumed)) :=
  paused_suppresses_forwarding false ⟨⟨false, true, "COM3"⟩, bufOf [], bufOf []⟩
    ⟨⟨false, true, "COM3"⟩,
      (ReadConsole (bufOf []) [65]).1,
      StdInRedirector.copy (ReadConsole (bufOf []) [65]).1 (bufOf []) 0 1⟩
    ⟨[65], false, ⟨true, 0, true⟩⟩ ⟨[66], false, ⟨true, 0, true⟩⟩ []
    ⟨false, true, "COM3"⟩ ⟨true, 0, true, 1, 65⟩ ⟨true, 0, true, 1, 66⟩ []
    rfl (by rfl) rfl rfl rfl

/-- C5: on a chunk that `EscapeChar` classifies as F1, in the `CONSOLE_ONLY`
build or when the operator confirms, the turn of the loop of `StdInRedirector`
sets `terminated`, leaves the loop in that turn and writes nothing to the
device, whatever `pause` holds; the loop returns having read that one chunk. -/
theorem exit_request_terminates (consoleOnly : Bool) (s : StdInState) (i : ConsoleInput)
    (rest : List ConsoleInput)
    (hrun : s.session.terminated = false)
    (hexit : EscapeChar (bufOf i.console) (i.console.length : Int) = 1)
    (hconfirm : consoleOnly = true ∨ i.confirm = true) :
    ((StdInRedirector.iter consoleOnly s i).state.session.terminated = true ∧
      (StdInRedirector.iter consoleOnly s i).leave = true ∧
      deviceWrites (StdInRedirector.iter consoleOnly s i).events = [] ∧
      (StdInRedirector.iter consoleOnly s i).state.session.pause = s.session.pause) ∧
    ((StdInRedirector.loop consoleOnly s (i :: rest)).returned = true ∧
      (StdInRedirector.loop consoleOnly s (i :: rest)).consumed = 1 ∧
      (StdInRedirector.loop consoleOnly s (i :: rest)).state.session.terminated = true ∧
      deviceWrites (StdInRedirector.loop consoleOnly s (i :: rest)).events = []) := by
  have hlen : i.console.length ≤ RW_BUFFER_SIZE :=
    length_le_of_key _ (by rw [hexit]; decide)
  have h := iter_exit consoleOnly s i (by rw [Nat.min_eq_left hlen]; exact hexit)
  have hit : (StdInRedirector.iter consoleOnly s i).state.session.terminated = true ∧
      (StdInRedirector.iter consoleOnly s i).leave = true ∧
      deviceWrites (StdInRedirector.iter consoleOnly s i).events = [] ∧
      (StdInRedirector.iter consoleOnly s i).state.session.pause = s.session.pause := by
    rw [h]
    rcases hconfirm with hb | hc
    · subst hb
      simp [deviceWrites]
    · cases consoleOnly <;> simp [hc, deviceWrites]
  refine ⟨hit, ?_⟩
  rw [loop_cons _ _ _ _ hrun, if_pos hit.2.1]
  exact ⟨rfl, rfl, hit.1, hit.2.2.1⟩

theorem exit_request_terminates_witness :
    ((StdInRedirector.iter true ⟨⟨false, true, "COM3"⟩, bufOf [], bufOf []⟩
        ⟨[0x1B, 79, 80], false, ⟨true, 0, true⟩⟩).state.session.terminated = true ∧
      (StdInRedirector.iter true ⟨⟨false, true, "COM3"⟩, bufOf [], bufOf []⟩
        ⟨[0x1B, 79, 80], false, ⟨true, 0, true⟩⟩).leave = true ∧
      deviceWrites (StdInRedirector.iter true ⟨⟨false, true, "COM3"⟩, bufOf [], bufOf []⟩
        ⟨[0x1B, 79, 80], false, ⟨true, 0, true⟩⟩).events = [] ∧
      (StdInRedirector.iter true ⟨⟨false, true, "COM3"⟩, bufOf [], bufOf []⟩
        ⟨[0x1B, 79, 80], false, ⟨true, 0, true⟩⟩).state.session.pause = true) ∧
    ((StdInRedirector.loop true ⟨⟨false, true, "COM3"⟩, bufOf [], bufOf []⟩
        [⟨[0x1B, 79, 80], false, ⟨true, 0, true⟩⟩, ⟨[65], false, ⟨true, 0, true⟩⟩]).returned = true ∧
      (StdInRedirector.loop true ⟨⟨false, true, "COM3"⟩, bufOf [], bufOf []⟩
        [⟨[0x1B, 79, 80], false, ⟨true, 0, true⟩⟩, ⟨[65], false, ⟨true, 0, true⟩⟩]).consumed = 1 ∧
      (StdInRedirector.loop true ⟨⟨false, true, "COM3"⟩, bufOf [], bufOf []⟩
        [⟨[0x1B, 79, 80], false, ⟨true, 0, true⟩⟩, ⟨[65], false, ⟨true, 0, true⟩⟩]).state.session.terminated
          = true ∧
      deviceWrites (StdInRedirector.loop true ⟨⟨false, true, "COM3"⟩, bufOf [], bufOf []⟩
        [⟨[0x1B, 79, 80], false, ⟨true, 0, true⟩⟩, ⟨[65], false, ⟨true, 0, true⟩⟩]).events = []) :=
  exit_request_terminates true ⟨⟨false, true, "COM3"⟩, bufOf [], bufOf []⟩
    ⟨[0x1B, 79, 80], false, ⟨true, 0, true⟩⟩ [⟨[65], false, ⟨true, 0, true⟩⟩]
    rfl (by decide) (Or.inl rfl)

/-- C6, as the claim states it: a device write whose start fails with a status
other than pending does not make the loop of `StdInRedirector` leave. -/
theorem failed_write_start_keeps_loop :
    ¬ ∀ (consoleOnly : Bool) (s : StdInState) (i : ConsoleInput),
      deviceWrites (StdInRedirector.iter consoleOnly s i).events ≠ [] →
      i.write.normal = false →
      (StdInRedirector.iter consoleOnly s i).leave = true := by
  intro h
  have hc := h false ⟨⟨false, false, "COM3"⟩, bufOf [], bufOf []⟩
    ⟨[65], false, ⟨false, 5, false⟩⟩ (by decide) (by decide)
  revert hc
  decide

/-- C6, amended: a turn of the loop of `StdInRedirector` that writes to the
device leaves the loop exactly when the write is reported pending and the wait
for its completion fails, and then the loop returns without reading a further
chunk; a write whose start fails with another status does not end the loop. -/
theorem failed_write_wait_leaves (consoleOnly : Bool) (s : StdInState) (i : ConsoleInput)
    (rest : List ConsoleInput)
    (hrun : s.session.terminated = false)
    (hwrite : deviceWrites (StdInRedirector.iter consoleOnly s i).events ≠ []) :
    ((StdInRedirector.iter consoleOnly s i).leave = true ↔ i.write.waitFailed = true) ∧
    (i.write.waitFailed = true →
      (StdInRedirector.loop consoleOnly s (i :: rest)).returned = true ∧
      (StdInRedirector.loop consoleOnly s (i :: rest)).consumed = 1) ∧
    (i.write.started = false → i.write.lastError ≠ ERROR_IO_PENDING →
      (StdInRedirector.iter consoleOnly s i).leave = false) := by
  have hleave : (StdInRedirector.iter consoleOnly s i).leave = i.write.waitFailed := by
    rcases iter_cases consoleOnly s i with ⟨t, -, -, h3, h4, -⟩ | ⟨-, h2⟩
    · cases hp : t.session.pause
      · rw [h3, forward_leave _ _ _ hp]
      · rw [h4, forward_paused _ _ _ hp] at hwrite
        exact absurd rfl hwrite
    · exact absurd h2 hwrite
  refine ⟨by rw [hleave], ?_, ?_⟩
  · intro hw
    rw [loop_cons _ _ _ _ hrun, hleave, hw]
    simp
  · intro h1 h2
    rw [hleave]
    simp [WriteResult.waitFailed, h1, h2]

theorem failed_write_wait_leaves_witness :
    ((StdInRedirector.iter false ⟨⟨false, false, "COM3"⟩, bufOf [], bufOf []⟩
        ⟨[65], false, ⟨false, 997, false⟩⟩).leave = true ↔
      (⟨false, 997, false⟩ : WriteResult).waitFailed = true) ∧
    ((⟨false, 997, false⟩ : WriteResult).waitFailed = true →
      (StdInRedirector.loop false ⟨⟨false, false, "COM3"⟩, bufOf [], bufOf []⟩
        [⟨[65], false, ⟨false, 997, false⟩⟩, ⟨[66], false, ⟨true, 0, true⟩⟩]).returned = true ∧
      (StdInRedirector.loop false ⟨⟨false, false, "COM3"⟩, bufOf [], bufOf []⟩
        [⟨[65], false, ⟨false, 997, false⟩⟩, ⟨[66], false, ⟨true, 0, true⟩⟩]).consumed = 1) ∧
    ((⟨false, 997, false⟩ : WriteResult).started = false →
      (⟨false, 997, false⟩ : WriteResult).lastError ≠ ERROR_IO_PENDING →
      (StdInRedirector.iter false ⟨⟨false, false, "COM3"⟩, bufOf [], bufOf []⟩
        ⟨[65], false, ⟨false, 997, false⟩⟩).leave = false) :=
  failed_write_wait_leaves false ⟨⟨false, false, "COM3"⟩, bufOf [], bufOf []⟩
    ⟨[65], false, ⟨false, 997, false⟩⟩ [⟨[66], false, ⟨true, 0, true⟩⟩] rfl (by decide)

/-- A run of `StdOutRedirector` through reads that yield a result and then one
whose wait fails. -/
theorem StdOutRedirector_until_failed (g : Session) (r : ReadResult) (rest : List ReadResult)
    (hrun : g.terminated = false) (hfail : r.waitFailed = true) :
    ∀ pre : List ReadResult, (∀ x ∈ pre, x.waitFailed = false) →
      (StdOutRedirector g (pre ++ r :: rest)).returned = true ∧
      (StdOutRedirector g (pre ++ r :: rest)).consumed = pre.length + 1 := by
  intro pre
  induction pre with
  | nil =>
    intro _
    rw [List.nil_append, StdOutRedirector_cons _ _ _ hrun, if_pos hfail]
    exact ⟨rfl, rfl⟩
  | cons x xs ih =>
    intro hpre
    have hx : x.waitFailed = false := hpre x (List.mem_cons_self _ _)
    have hxs := ih (fun y hy => hpre y (List.mem_cons_of_mem _ hy))
    rw [List.cons_append, StdOutRedirector_cons _ _ _ hrun, hx]
    simp only [Bool.false_eq_true, if_false, List.length_cons]
    exact ⟨hxs.1, by rw [hxs.2]⟩

/-- C7, as the claim states it: a run of `StdOutRedirector` whose read fails in
the wait for completion while `terminated` is false returns with `terminated`
still false. -/
theorem failed_read_leaves_terminated_false :
    ¬ ∀ (g : Session) (pre : List ReadResult) (r : ReadResult) (rest : List ReadResult),
      g.terminated = false → (∀ x ∈ pre, x.waitFailed = false) → r.waitFailed = true →
      (StdOutRedirector g (pre ++ r :: rest)).returned = true ∧
      (StdOutRedirector g (pre ++ r :: rest)).session.terminated = true := by
  intro h
  have hc := h ⟨false, false, "COM3"⟩ [] ⟨false, 997, false, 0, 0⟩ [] rfl
    (by intro x hx; cases hx) (by decide)
  revert hc
  decide

/-- C7, amended: a run of `StdOutRedirector` whose read fails in the wait for
completion while `terminated` is false leaves its loop at that read and
returns; it stores nothing to `terminated`, which is still false then. -/
theorem failed_read_returns (g : Session) (pre : List ReadResult) (r : ReadResult)
    (rest : List ReadResult)
    (hrun : g.terminated = false) (hpre : ∀ x ∈ pre, x.waitFailed = false)
    (hfail : r.waitFailed = true) :
    (StdOutRedirector g (pre ++ r :: rest)).returned = true ∧
    (StdOutRedirector g (pre ++ r :: rest)).consumed = pre.length + 1 ∧
    (StdOutRedirector g (pre ++ r :: rest)).session.terminated = false := by
  obtain ⟨h1, h2⟩ := StdOutRedirector_until_failed g r rest hrun hfail pre hpre
  exact ⟨h1, h2, by rw [StdOutRedirector_session, hrun]⟩

theorem failed_read_returns_witness :
    (StdOutRedirector ⟨false, false, "COM3"⟩
      ([⟨true, 0, true, 1, 65⟩] ++ ⟨false, 997, false, 0, 0⟩ :: [⟨true, 0, true, 1, 66⟩])).returned
        = true ∧
    (StdOutRedirector ⟨false, false, "COM3"⟩
      ([⟨true, 0, true, 1, 65⟩] ++ ⟨false, 997, false, 0, 0⟩ :: [⟨true, 0, true, 1, 66⟩])).consumed
        = [(⟨true, 0, true, 1, 65⟩ : ReadResult)].length + 1 ∧
    (StdOutRedirector ⟨false, false, "COM3"⟩
      ([⟨true, 0, true, 1, 65⟩] ++ ⟨false, 997, false, 0, 0⟩ ::
        [⟨true, 0, true, 1, 66⟩])).session.terminated = false :=
  failed_read_returns ⟨false, false, "COM3"⟩ [⟨true, 0, true, 1, 65⟩] ⟨false, 997, false, 0, 0⟩
    [⟨true, 0, true, 1, 66⟩] rfl (by decide) (by decide)

/-- C8: for every port `p`, the title `_tmain` sets once the device is open is
`SimpleCom: ` followed by `p`; the port of the session stays `p`; and a turn of
the loop of `StdInRedirector` on the F8 chunk sets one title, `SimpleCom: `
followed by `p` when `pause` becomes false, and that followed by ` [PAUSE]`
when `pause` becomes true. -/
theorem titles_exact (consoleOnly : Bool) (e : Startup) (schedule : List Tick) (p : String)
    (s : StdInState) (i : ConsoleInput)
    (hcfg : configure consoleOnly e = Except.ok (some p)) (hopen : e.createFile = true)
    (hport : s.session.Port = p)
    (htoggle : EscapeChar (bufOf i.console) (i.console.length : Int) = 8) :
    (titles (_tmain consoleOnly e schedule).trace).head? = some ("SimpleCom: " ++ p) ∧
    (run consoleOnly e.createWriteEvent (startWorld e p) schedule).state.session.Port = p ∧
    (StdInRedirector.iter consoleOnly s i).state.session.pause = (!s.session.pause) ∧
    titles (StdInRedirector.iter consoleOnly s i).events =
      [if (StdInRedirector.iter consoleOnly s i).state.session.pause
        then "SimpleCom: " ++ p ++ " [PAUSE]" else "SimpleCom: " ++ p] := by
  have hlen : i.console.length ≤ RW_BUFFER_SIZE :=
    length_le_of_key _ (by rw [htoggle]; decide)
  have h := iter_toggle consoleOnly s i (by rw [Nat.min_eq_left hlen]; exact htoggle)
  refine ⟨?_, ?_, ?_, ?_⟩
  · rw [tmain_opened _ _ _ _ hcfg hopen]
    cases e.createReadEvent <;> cases e.createThread <;> simp [titles]
  · rw [run_Port]
    rfl
  · rw [h]
  · rw [h]
    simp only []
    rw [titles, forward_titles, hport]

theorem titles_exact_witness :
    ((titles (_tmain false startupCOM3 []).trace).head? = some "SimpleCom: COM3" ∧
      titles (StdInRedirector.iter false ⟨⟨false, false, "COM3"⟩, bufOf [], bufOf []⟩
        ⟨[0x1B, 91, 49, 57, 126], false, ⟨true, 0, true⟩⟩).events = ["SimpleCom: COM3 [PAUSE]"]) ∧
    titles (StdInRedirector.iter false ⟨⟨false, true, "COM3"⟩, bufOf [], bufOf []⟩
        ⟨[0x1B, 91, 49, 57, 126], false, ⟨true, 0, true⟩⟩).events = ["SimpleCom: COM3"] := by
  have h1 := titles_exact false startupCOM3 [] "COM3"
    ⟨⟨false, false, "COM3"⟩, bufOf [], bufOf []⟩
    ⟨[0x1B, 91, 49, 57, 126], false, ⟨true, 0, true⟩⟩ rfl rfl rfl (by decide)
  have h2 := titles_exact false startupCOM3 [] "COM3"
    ⟨⟨false, true, "COM3"⟩, bufOf [], bufOf []⟩
    ⟨[0x1B, 91, 49, 57, 126], false, ⟨true, 0, true⟩⟩ rfl rfl rfl (by decide)
  refine ⟨⟨?_, ?_⟩, ?_⟩
  · rw [h1.1]
    decide
  · rw [h1.2.2.2, h1.2.2.1]
    decide
  · rw [h2.2.2.2, h2.2.2.1]
    decide

/-- C9, as the claim states it: a configuration failure and the failure to
create the worker both exit with `-2`, and a run in which `StdInRedirector`
cannot create its completion event exits with `0`. -/
theorem exit_codes_shared :
    (¬ ∀ (b : Bool) (e1 e2 : Startup) (t1 t2 : List Tick),
      startupClass b e1 = StartupClass.configuration →
      (startupClass b e2 = StartupClass.readEvent ∨ startupClass b e2 = StartupClass.worker ∨
        startupClass b e2 = StartupClass.writeEvent) →
      (_tmain b e1 t1).exit ≠ (_tmain b e2 t2).exit) ∧
    (¬ ∀ (b : Bool) (e : Startup) (t : List Tick),
      (startupClass b e = StartupClass.readEvent ∨ startupClass b e = StartupClass.worker ∨
        startupClass b e = StartupClass.writeEvent) →
      (_tmain b e t).exit ≠ some 0) := by
  constructor
  · intro h
    have hc := h false startupBadArguments startupNoWorker [] [] (by decide) (by decide)
    revert hc
    decide
  · intro h
    have hc := h false startupNoWriteEvent scheduleNoWriteEvent (by decide)
    revert hc
    decide

/-- C9, amended: `_tmain` exits with `-1` or `-2` when the configuration fails,
with `-4` when the device does not open, with `-1` when the completion event of
the read direction is not created, with `-2` when the worker is not created,
and with `0` when the session runs and `_tmain` returns; the code of the
device-open failure differs from the codes of the other three failures. -/
theorem exit_codes (consoleOnly : Bool) (e e2 : Startup) (schedule schedule2 : List Tick) :
    (startupClass consoleOnly e = StartupClass.configuration →
      (_tmain consoleOnly e schedule).exit = some (-1) ∨
      (_tmain consoleOnly e schedule).exit = some (-2)) ∧
    (startupClass consoleOnly e = StartupClass.deviceOpen →
      (_tmain consoleOnly e schedule).exit = some (-4)) ∧
    (startupClass consoleOnly e = StartupClass.readEvent →
      (_tmain consoleOnly e schedule).exit = some (-1)) ∧
    (startupClass consoleOnly e = StartupClass.worker →
      (_tmain consoleOnly e schedule).exit = some (-2)) ∧
    (startupClass consoleOnly e = StartupClass.session →
      ∀ code, (_tmain consoleOnly e schedule).exit = some code → code = 0) ∧
    (startupClass consoleOnly e = StartupClass.deviceOpen →
      (startupClass consoleOnly e2 = StartupClass.configuration ∨
        startupClass consoleOnly e2 = StartupClass.readEvent ∨
        startupClass consoleOnly e2 = StartupClass.worker) →
      (_tmain consoleOnly e schedule).exit ≠ (_tmain consoleOnly e2 schedule2).exit) := by
  have key : ∀ (e : Startup) (schedule : List Tick),
      (startupClass consoleOnly e = StartupClass.configuration →
        (_tmain consoleOnly e schedule).exit = some (-1) ∨
        (_tmain consoleOnly e schedule).exit = some (-2)) ∧
      (startupClass consoleOnly e = StartupClass.deviceOpen →
        (_tmain consoleOnly e schedule).exit = some (-4)) ∧
      (startupClass consoleOnly e = StartupClass.readEvent →
        (_tmain consoleOnly e schedule).exit = some (-1)) ∧
      (startupClass consoleOnly e = StartupClass.worker →
        (_tmain consoleOnly e schedule).exit = some (-2)) ∧
      (startupClass consoleOnly e = StartupClass.session →
        ∀ code, (_tmain consoleOnly e schedule).exit = some code → code = 0) := by
    intro e schedule
    unfold startupClass _tmain
    cases hc : configure consoleOnly e with
    | error x => cases x <;> simp
    | ok o =>
      cases o with
      | none => simp
      | some p =>
        cases e.createFile <;> cases e.createReadEvent <;> cases e.createThread <;>
          cases e.createWriteEvent <;> simp
  obtain ⟨a1, a2, a3, a4, a5⟩ := key e schedule
  obtain ⟨b1, _, b3, b4, _⟩ := key e2 schedule2
  refine ⟨a1, a2, a3, a4, a5, ?_⟩
  intro h hc
  rw [a2 h]
  rcases hc with hc | hc | hc
  · rcases b1 hc with hb | hb <;> rw [hb] <;> decide
  · rw [b3 hc]
    decide
  · rw [b4 hc]
    decide

theorem exit_codes_witness :
    (startupClass false startupBadArguments = StartupClass.configuration ∧
      (_tmain false startupBadArguments []).exit = some (-2)) ∧
    (startupClass false startupCOM3 = StartupClass.session ∧
      (_tmain false startupCOM3 scheduleSession).exit = some 0 ∧
      ∀ code, (_tmain false startupCOM3 scheduleSession).exit = some code → code = 0) := by
  have h := exit_codes false startupBadArguments startupCOM3 [] scheduleSession
  have h2 := exit_codes false startupCOM3 startupCOM3 scheduleSession scheduleSession
  refine ⟨⟨by decide, ?_⟩, ⟨by decide, by decide, h2.2.2.2.2.1 (by decide)⟩⟩
  rcases h.1 (by decide) with h1 | h1
  · revert h1
    decide
  · exact h1

end SimpleCom
